import Mathlib

/-!
Verification development for the Mask2CAD prediction head (`models.py` of
mask2cad_pytorch).  The numeric tensors of the source are modelled as exact
rational or real values (floats idealized as members of an ordered field); the
explicit `float(inf)` sentinels that the source injects into the masked
similarity matrices are modelled by the top and bottom elements of
`WithBot (WithTop Real)`, and a computation whose float result would be
non-finite (NaN or an infinity) or would raise is modelled as `none` /
`Except.error`.
-/

namespace quat

/-- Modelled from the spec: `models.py` imports a module `quat` (line 8) that is
not under `src/`; section 4.1 of the spec describes its operations on
scalar-last quaternions (x, y, z, w).  A quaternion with rational components. -/
@[ext]
structure Quat where
  x : ℚ
  y : ℚ
  z : ℚ
  w : ℚ
deriving DecidableEq, Repr

/-- Modelled from the spec: `compose(a, b)` is the non-commutative
rotation-composition product (section 4.1), the Hamilton product in the
scalar-last convention. -/
def quatprod (a b : Quat) : Quat :=
  { x := a.w * b.x + a.x * b.w + a.y * b.z - a.z * b.y
    y := a.w * b.y - a.x * b.z + a.y * b.w + a.z * b.x
    z := a.w * b.z + a.x * b.y - a.y * b.x + a.z * b.w
    w := a.w * b.w - a.x * b.x - a.y * b.y - a.z * b.z }

/-- Conjugate of a quaternion; for the unit quaternions the spec applies the
operations to, the inverse is the conjugate. -/
def conjugate (a : Quat) : Quat := { x := -a.x, y := -a.y, z := -a.z, w := a.w }

/-- Modelled from the spec: `relative(a, b) = compose(inverse(a), b)`
(section 4.1), the quaternion d with `compose(a, d) = b`. -/
def quatprodinv (a b : Quat) : Quat := quatprod (conjugate a) b

/-- Four-component dot product of two quaternions. -/
def dot (a b : Quat) : ℚ := a.x * b.x + a.y * b.y + a.z * b.z + a.w * b.w

/-- Squared norm of a quaternion. -/
def normSq (a : Quat) : ℚ := dot a a

/-- Componentwise negation: the double-cover partner representing the same
rotation. -/
def neg (a : Quat) : Quat := { x := -a.x, y := -a.y, z := -a.z, w := -a.w }

/-- Modelled from the spec: the double-cover-aware distance between two
quaternions, in the bounded proxy form `1 - |dot(a, b)|` that section 4.1 gives
as the equivalent of taking the smaller of the two chordal distances to b
and -b. -/
def quatdist (a b : Quat) : ℚ := 1 - |dot a b|

/-- Modelled from the spec: `quatcdist` (models.py line 115) maps a quaternion
against a row of anchors, producing the pairwise distances. -/
def quatcdist (q : Quat) (anchors : List Quat) : List ℚ := anchors.map (quatdist q)

/-- The identity quaternion (scalar-last), used as an out-of-range default for
list indexing in the model; the source never indexes out of range under the
theorems' hypotheses. -/
def qid : Quat := { x := 0, y := 0, z := 0, w := 1 }

end quat

/-- Index of the first occurrence of the minimal element of a list, as
`torch.argmin` over the last dimension returns it (0 on the empty list, where
torch would raise). -/
def argminIdx {α : Type} [LinearOrder α] : List α → ℕ
  | [] => 0
  | [_] => 0
  | x :: y :: t =>
    if x ≤ (y :: t).getD (argminIdx (y :: t)) x then 0 else argminIdx (y :: t) + 1

/-- Index of the first occurrence of the maximal element of a list, as
`torch.argmax` over the last dimension returns it (0 on the empty list, where
torch would raise). -/
def argmaxIdx {α : Type} [LinearOrder α] : List α → ℕ
  | [] => 0
  | [_] => 0
  | x :: y :: t =>
    if (y :: t).getD (argmaxIdx (y :: t)) x ≤ x then 0 else argmaxIdx (y :: t) + 1

namespace Mask2CAD

/-- A bounding box in corner form (x1, y1, x2, y2), one row of the `bbox`
tensor. -/
structure BoxXYXY where
  x1 : ℚ
  y1 : ℚ
  x2 : ℚ
  y2 : ℚ

/-- A bounding box in center form (cx, cy, w, h). -/
structure BoxCXCYWH where
  cx : ℚ
  cy : ℚ
  w : ℚ
  h : ℚ

/-- Box conversion of models.py lines 153-157: width and height from the
corners, then the center from a corner plus half the extent. -/
def xyxy_to_cxcywh (b : BoxXYXY) : BoxCXCYWH :=
  { cx := b.x1 + (b.x2 - b.x1) / 2
    cy := b.y1 + (b.y2 - b.y1) / 2
    w := b.x2 - b.x1
    h := b.y2 - b.y1 }

/-- Ground-truth rotation bin (models.py line 115): argmin over the pairwise
quaternion distances of the true rotation against the category's anchors. -/
def assignBin (anchors : List quat.Quat) (q : quat.Quat) : ℕ :=
  argminIdx (quat.quatcdist q anchors)

/-- The anchor selected for the assigned bin (models.py line 116,
`gather_incomplete` along the cluster dimension). -/
def selectedAnchor (anchors : List quat.Quat) (q : quat.Quat) : quat.Quat :=
  anchors.getD (assignBin anchors q) quat.qid

/-- The triple computed by `compute_rotation_location_targets` for one
detection. -/
structure RotLocTargets where
  bin : ℕ
  delta : quat.Quat
  center_dx : ℚ
  center_dy : ℚ

/-- Training-target computation of models.py lines 113-125, modelled per
detection (the batched tensor operations act independently on each detection):
line 114 gathers the detection category's anchor row, line 115 assigns the
nearest-anchor bin, line 116 gathers the chosen anchor, line 120 forms the
residual rotation `quat.quatprodinv(anchor, true)`, and lines 122-123 form the
box-normalized center offsets from `xyxy_to_cxcywh`. -/
def compute_rotation_location_targets (anchors_by_category : List (List quat.Quat))
    (bbox : BoxXYXY) (object_location : ℚ × ℚ × ℚ) (object_rotation_quat : quat.Quat)
    (category_idx : ℕ) : RotLocTargets :=
  let anchor_quats := anchors_by_category.getD category_idx []
  let bin := assignBin anchor_quats object_rotation_quat
  let anchor := anchor_quats.getD bin quat.qid
  let c := xyxy_to_cxcywh bbox
  { bin := bin
    delta := quat.quatprodinv anchor object_rotation_quat
    center_dx := (object_location.1 - c.cx) / c.w
    center_dy := (object_location.2.1 - c.cy) / c.h }

/-- The loss-weight keys that models.py line 96 reads from the `loss_weights`
dict of the `forward` signature (line 64). -/
structure LossWeights where
  shape_embedding : ℚ
  pose_classification : ℚ
  pose_regression : ℚ

/-- The default `loss_weights` of the `forward` signature (models.py line 64):
shape_embedding 0.5, pose_classification 0.25, pose_regression 5.0. -/
def default_loss_weights : LossWeights :=
  { shape_embedding := 1 / 2, pose_classification := 1 / 4, pose_regression := 5 }

/-- The combined training loss of models.py line 96: the rotation-refinement
term and the center-regression term are both multiplied by
`loss_weights[pose_regression]`. -/
def combined_loss (w : LossWeights) (shape_embedding_l pose_classification_l
    pose_regression_l center_regression_l : ℚ) : ℚ :=
  w.shape_embedding * shape_embedding_l + w.pose_classification * pose_classification_l +
    w.pose_regression * pose_regression_l + w.pose_regression * center_regression_l

/-- The external collaborators that `Mask2CAD.forward` composes when it builds
the tensor fed to the four prediction branches (models.py lines 67-79).  The
torchvision detector pieces and `F.interpolate` are outside the core, so they
are opaque parameters over an arbitrary tensor type `T` with elementwise
product; the per-category mask logits of one detection are a list indexed by
category, so that the category gather of line 77 is concrete. -/
structure ForwardParts (T : Type) where
  transform : T → T
  backbone : T → T
  box_roi_pool : T → T → T
  mask_roi_pool_args : T × T
  mask_logits : List T
  detector_labels : ℕ
  sigmoid : T → T
  interpolate : T → T
  zero : T

/-- The foreground-probability map of models.py line 77: the mask logits
gathered at the detection's category, passed through the sigmoid. -/
def mask_probs {T : Type} (p : ForwardParts T) : T :=
  p.sigmoid (p.mask_logits.getD p.detector_labels p.zero)

/-- The `box_features` tensor fed identically to the four prediction branches
(models.py lines 82-85), as `forward` builds it.  In training mode
(lines 67-70) it is the pooled box features of the backbone features of the
transformed image, with no mask gating; in evaluation mode (lines 71-78) the
pooled features are interpolated to the mask resolution and multiplied
elementwise by the gathered foreground probabilities. -/
def branch_input {T : Type} [Mul T] (p : ForwardParts T) (training : Bool)
    (img bbox : T) : T :=
  if training then
    p.box_roi_pool (p.backbone (p.transform img)) bbox
  else
    p.interpolate (p.box_roi_pool p.mask_roi_pool_args.1 p.mask_roi_pool_args.2) *
      mask_probs p

/-- A concrete instantiation of the opaque detector pieces over rational
one-pixel tensors, used to evaluate the training-mode data flow at a concrete
input. -/
def concrete_parts : ForwardParts ℚ :=
  { transform := id
    backbone := id
    box_roi_pool := fun f _ => f
    mask_roi_pool_args := (1, 1)
    mask_logits := [0]
    detector_labels := 0
    sigmoid := fun _ => 1 / 2
    interpolate := id
    zero := 0 }

/-- Names bound at module top level of models.py: the imports of lines 1-8 bind
the module names only (line 8 binds `quat`, not the functions inside it), and
the three class statements bind the class names. -/
def models_module_globals : List String :=
  ["math", "torch", "nn", "F", "torchvision", "quat",
   "ShapeRetrieval", "Mask2CAD", "CacheInputOutput"]

/-- Local names bound in the body of `Mask2CAD.forward` by the time line 102
runs in evaluation mode: the parameters of line 64 and the assignments of
lines 65-101. -/
def forward_locals : List String :=
  ["self", "img", "rendered", "category_idx", "shape_idx", "bbox",
   "object_location", "object_rotation_quat", "loss_weights", "P", "N", "B",
   "detections", "num_boxes", "box_features", "mask_logits", "mask_probs",
   "Q", "shape_embedding", "object_rotation_bins", "object_rotation_delta",
   "center_delta", "anchor_quat"]

/-- A representative set of Python builtin names reachable from models.py;
no builtin is named `quatprod`. -/
def python_builtins : List String :=
  ["len", "zip", "tuple", "dict", "range", "print", "list", "map", "sum"]

/-- Python resolution of a bare name inside `Mask2CAD.forward`: local scope,
then module globals, then builtins; an unresolved name raises NameError. -/
def name_resolves (n : String) : Bool :=
  forward_locals.contains n || models_module_globals.contains n ||
    python_builtins.contains n

/-- The result of the evaluation branch of `forward` for one detection. -/
structure EvalDetection where
  rotation : quat.Quat
  location_x : ℚ
  location_y : ℚ
  location_z : ℚ

/-- Evaluation branch of `Mask2CAD.forward` (models.py lines 100-111), modelled
per detection after the branch outputs are gathered: line 101 selects the
anchor of the argmax classification bin, line 102 applies the bare name
`quatprod` to compose the final rotation (the name must resolve before the
product is formed), and lines 103-104 recover the location from the box center
and the predicted offsets, passing the input depth through. -/
def forward_eval (anchors_by_category : List (List quat.Quat)) (category_idx : ℕ)
    (object_rotation_bins : List ℚ) (object_rotation_delta : quat.Quat)
    (bbox : BoxXYXY) (center_dx center_dy depth : ℚ) : Except String EvalDetection :=
  let anchor_quat :=
    (anchors_by_category.getD category_idx []).getD (argmaxIdx object_rotation_bins) quat.qid
  if name_resolves "quatprod" then
    let c := xyxy_to_cxcywh bbox
    Except.ok
      { rotation := quat.quatprod anchor_quat object_rotation_delta
        location_x := c.cx + center_dx * c.w
        location_y := c.cy + center_dy * c.h
        location_z := depth }
  else
    Except.error "NameError: name quatprod is not defined"

end Mask2CAD

namespace ShapeRetrieval

/-- The attribute slots a `ShapeRetrieval` instance can hold; `none` means the
attribute was never assigned, and reading an unassigned attribute raises
AttributeError (`nn.Module` raises it from `__getattr__` for unknown names). -/
structure Attrs (E I : Type) where
  model : Option Unit
  shape_embedding : Option (List E)
  shape_indices : Option (List I)
  shape_idx : Option (List I)

/-- One iteration of the constructor loop (models.py lines 16-18): extend
`shape_embedding` with the encoded views of the item and `shape_indices` with
the item's per-view shape indices. -/
def init_step {V E I : Type} (encoder : V → List E)
    (s : Attrs E I) (item : V × List I) : Attrs E I :=
  { s with
    shape_embedding := some ((s.shape_embedding.getD []) ++ encoder item.1)
    shape_indices := some ((s.shape_indices.getD []) ++ item.2) }

/-- The attribute state after lines 13-15 of models.py: `model` assigned,
`shape_embedding` and `shape_indices` initialized to empty lists, and
`shape_idx` never assigned. -/
def init_attrs0 (E I : Type) : Attrs E I :=
  { model := some (), shape_embedding := some [], shape_indices := some [],
    shape_idx := none }

/-- The list of per-view embedding rows the constructor loop of models.py
lines 16-18 accumulates into `self.shape_embedding`. -/
def accumulated_embedding {V E I : Type} (encoder : V → List E)
    (dataset : List (V × List I)) : List E :=
  ((dataset.foldl (init_step encoder) (init_attrs0 E I)).shape_embedding).getD []

/-- `torch.cat` over a Python list of per-view embedding rows: it raises
RuntimeError on an empty list, and otherwise the concatenation of the row
tensors is the stacked list of rows the loop accumulated. -/
def torch_cat {E : Type} (rows : List E) : Except String (List E) :=
  if rows.isEmpty then
    Except.error "RuntimeError: torch.cat expected a non-empty list of Tensors"
  else Except.ok rows

/-- The `ShapeRetrieval` constructor (models.py lines 11-20).  `F.normalize`
and the rendered-view encoder are opaque.  Lines 13-15 assign `model`,
`shape_embedding` and `shape_indices` (`init_attrs0`); the loop of lines 16-18
extends the two lists; line 19 applies `torch.cat` to the accumulated
embedding list (raising RuntimeError when it is empty) and re-assigns
`shape_embedding` to the normalized concatenation; line 20 then reads
`self.shape_idx`, an attribute no prior line assigned (the update of line 19
does not touch it, so the read sees the state the loop left). -/
def init {V E I : Type} (encoder : V → List E) (normalize_fn : List E → List E)
    (dataset : List (V × List I)) : Except String (Attrs E I) :=
  match torch_cat ((dataset.foldl (init_step encoder)
      (init_attrs0 E I)).shape_embedding.getD []) with
  | Except.error e => Except.error e
  | Except.ok catted =>
    match (dataset.foldl (init_step encoder) (init_attrs0 E I)).shape_idx with
    | none =>
      Except.error "AttributeError: ShapeRetrieval object has no attribute shape_idx"
    | some v =>
      Except.ok { dataset.foldl (init_step encoder) (init_attrs0 E I) with
        shape_embedding := some (normalize_fn catted), shape_idx := some v }

end ShapeRetrieval

/-- A feature vector (one row of an embedding tensor), with float entries
idealized as reals. -/
abbrev Vec := List ℝ

/-- Sum of squared entries of a vector. -/
def sumSq (v : Vec) : ℝ := (v.map fun x => x * x).sum

/-- torch `F.normalize(v, dim = -1)`: divide each entry by the L2 norm clamped
below by the default eps 1e-12. -/
noncomputable def l2normalize (v : Vec) : Vec :=
  v.map fun x => x / max (Real.sqrt (sumSq v)) (1 / 10 ^ 12)

/-- Dot product of two vectors. -/
noncomputable def dotVec (a b : Vec) : ℝ := (List.zipWith (· * ·) a b).sum

/-- Entry type of the masked similarity matrices of models.py lines 146-147: a
real similarity, or one of the sentinels that `torch.full_like(D, inf)` and
`torch.full_like(D, -inf)` inject (the top and bottom elements). -/
abbrev ER := WithBot (WithTop ℝ)

/-- Embed a finite similarity into the sentinel-carrying entry type. -/
def toER (x : ℝ) : ER := ((x : WithTop ℝ) : ER)

/-- The finite value of a masked-matrix entry; the sentinels have none, and a
float computation consuming them produces a non-finite result. -/
def finOf (x : ER) : Option ℝ :=
  WithBot.recBotCoe none (WithTop.recTopCoe none some) x

namespace Mask2CAD

/-- Entry (i, j) of the cross similarity matrix D of models.py lines 140-141:
the dot product of the L2-normalized embedding of detection i and the
L2-normalized embedding of rendered view j, divided by the temperature tau.
The batched tensors are modelled flattened, as lines 141-144 flatten them: the
detections are a list of B*Q feature vectors and the views a list of B*Q*V
feature vectors. -/
noncomputable def simMatrix (img_region_features rendered_view_features : List Vec)
    (tau : ℝ) (i j : ℕ) : ℝ :=
  dotVec (l2normalize (img_region_features.getD i []))
    (l2normalize (rendered_view_features.getD j [])) / tau

/-- The per-view index list produced by the unsqueeze/expand/reshape of
models.py lines 143-144: each per-detection index repeated V times, so that
view j carries the index of the detection it was rendered for. -/
def viewIdxOf (idx : List ℕ) (V : ℕ) : List ℕ := idx.flatMap (List.replicate V)

/-- Entry (i, j) of the `same_shape` mask of models.py line 143: detection i
and rendered view j have the same ground-truth shape index. -/
def same_shape (shape_idx : List ℕ) (V : ℕ) (i j : ℕ) : Bool :=
  shape_idx.getD i 0 == (viewIdxOf shape_idx V).getD j 0

/-- Entry (i, j) of the `same_category` mask of models.py line 144: detection i
and rendered view j have the same category index. -/
def same_category (category_idx : List ℕ) (V : ℕ) (i j : ℕ) : Bool :=
  category_idx.getD i 0 == (viewIdxOf category_idx V).getD j 0

/-- Row i of `torch.where(same_shape, D, inf)` (models.py line 146): the
similarity where the shapes match, the +inf sentinel elsewhere. -/
noncomputable def posMaskedRow (img_region_features rendered_view_features : List Vec)
    (shape_idx : List ℕ) (V : ℕ) (tau : ℝ) (i : ℕ) : List ER :=
  (List.range rendered_view_features.length).map fun j =>
    if same_shape shape_idx V i j then
      toER (simMatrix img_region_features rendered_view_features tau i j)
    else (⊤ : ER)

/-- Row i of `torch.where(same_category, D, -inf)` (models.py line 147): the
similarity where the categories match, the -inf sentinel elsewhere. -/
noncomputable def negMaskedRow (img_region_features rendered_view_features : List Vec)
    (category_idx : List ℕ) (V : ℕ) (tau : ℝ) (i : ℕ) : List ER :=
  (List.range rendered_view_features.length).map fun j =>
    if same_category category_idx V i j then
      toER (simMatrix img_region_features rendered_view_features tau i j)
    else (⊥ : ER)

/-- torch `row.topk(k, largest = False).values`: the k smallest entries of the
row; torch raises when k exceeds the row size (modelled as `none`). -/
noncomputable def topkSmallest (k : ℕ) (row : List ER) : Option (List ER) :=
  if row.length < k then none
  else some ((List.insertionSort (· ≤ ·) row).take k)

/-- torch `row.topk(k, largest = True).values`: the k largest entries of the
row; torch raises when k exceeds the row size (modelled as `none`). -/
noncomputable def topkLargest (k : ℕ) (row : List ER) : Option (List ER) :=
  if row.length < k then none
  else some ((List.insertionSort (· ≤ ·) row).reverse.take k)

/-- The per-detection term of models.py line 149:
`-(Dpos / (Dpos + C * Dneg.sum())).log().sum()` over the selected positives and
negatives.  A missing selection (torch topk raised) or a selected sentinel
(whose float arithmetic yields NaN or an infinity) leaves the row without a
finite value. -/
noncomputable def rowLossOf (C : ℝ) (pos neg : Option (List ER)) : Option ℝ :=
  match pos, neg with
  | some psE, some nsE =>
    match psE.mapM finOf, nsE.mapM finOf with
    | some ps, some ns =>
      some ((ps.map fun p => -Real.log (p / (p + C * ns.sum))).sum)
    | _, _ => none
  | _, _ => none

/-- The contrastive shape-embedding loss of models.py lines 138-151, on the
flattened batch: normalize both embedding families, build the cross similarity
matrix, mask it by shape and by category with the inf sentinels, select the P
smallest-similarity and N largest-similarity entries per detection, form the
ratio terms, and average the per-detection sums over the batch (`loss.mean()`;
the mean of an empty batch is NaN, hence `none`). -/
noncomputable def shape_embedding_loss (img_region_features rendered_view_features : List Vec)
    (category_idx shape_idx : List ℕ) (V : ℕ) (C tau : ℝ) (P N : ℕ) : Option ℝ :=
  if img_region_features.length = 0 then none
  else
    ((List.range img_region_features.length).mapM fun i =>
      rowLossOf C
        (topkSmallest P (posMaskedRow img_region_features rendered_view_features shape_idx V tau i))
        (topkLargest N (negMaskedRow img_region_features rendered_view_features category_idx V tau i))).map
      fun ls => ls.sum / (img_region_features.length : ℝ)

/-- The hardest positives as section 4.4 of the spec words them: among the
entries of row i with `sameShape` true, the P entries with the smallest
similarity. -/
noncomputable def specPosSims (img_region_features rendered_view_features : List Vec)
    (shape_idx : List ℕ) (V : ℕ) (tau : ℝ) (P : ℕ) (i : ℕ) : List ℝ :=
  (List.insertionSort (· ≤ ·)
    (((List.range rendered_view_features.length).filter fun j => same_shape shape_idx V i j).map
      (simMatrix img_region_features rendered_view_features tau i))).take P

/-- The hardest negatives as section 4.4 of the spec words them: among the
entries of row i with `sameCategory` true, the N entries with the largest
similarity. -/
noncomputable def specNegSims (img_region_features rendered_view_features : List Vec)
    (category_idx : List ℕ) (V : ℕ) (tau : ℝ) (N : ℕ) (i : ℕ) : List ℝ :=
  ((List.insertionSort (· ≤ ·)
    (((List.range rendered_view_features.length).filter fun j => same_category category_idx V i j).map
      (simMatrix img_region_features rendered_view_features tau i))).reverse).take N

/-- The loss as sections 4.4 steps 1-6 of the spec word it: for every detection
the sum over the P hardest positives of `-log(Dpos / (Dpos + C * sum(Dneg)))`
on the raw similarities, averaged over all detections of the batch. -/
noncomputable def shape_embedding_loss_spec (img_region_features rendered_view_features : List Vec)
    (category_idx shape_idx : List ℕ) (V : ℕ) (C tau : ℝ) (P N : ℕ) : ℝ :=
  (((List.range img_region_features.length).map fun i =>
    ((specPosSims img_region_features rendered_view_features shape_idx V tau P i).map
      fun p => -Real.log (p / (p + C *
        (specNegSims img_region_features rendered_view_features category_idx V tau N i).sum))).sum).sum) /
    (img_region_features.length : ℝ)

end Mask2CAD

namespace ShapeRetrieval

/-- The similarity row of models.py line 26 for one detection: the dot product
of the L2-normalized detection embedding against every catalog row (the stored
catalog is already normalized). -/
noncomputable def querySims (catalog : List Vec) (det : Vec) : List ℝ :=
  catalog.map fun c => dotVec (l2normalize det) c

/-- The retrieval query of `ShapeRetrieval.forward` (models.py lines 22-31),
per detection: the value stored into the detection's `shape_idx` is the argmax
of the similarity row, an index into the catalog rows. -/
noncomputable def query (catalog : List Vec) (det : Vec) : ℕ :=
  argmaxIdx (querySims catalog det)

/-- The query as section 4.9 of the spec words it: return the shape id stored
for the catalog entry of maximal similarity, ties to the entry earliest in
catalog insertion order. -/
noncomputable def query_spec (catalog : List Vec) (catalog_shape_ids : List ℕ)
    (det : Vec) : ℕ :=
  catalog_shape_ids.getD (argmaxIdx (querySims catalog det)) 0

end ShapeRetrieval

theorem quat.conjugate_prod_self (a d : quat.Quat) (ha : quat.normSq a = 1) :
    quat.quatprod (quat.conjugate a) (quat.quatprod a d) = d := by
  obtain ⟨ax, ay, az, aw⟩ := a
  obtain ⟨dx, dy, dz, dw⟩ := d
  simp only [quat.normSq, quat.dot] at ha
  simp only [quat.quatprod, quat.conjugate]
  refine quat.Quat.ext ?_ ?_ ?_ ?_ <;> dsimp only
  · linear_combination dx * ha
  · linear_combination dy * ha
  · linear_combination dz * ha
  · linear_combination dw * ha

theorem quat.prod_conjugate_self (a t : quat.Quat) (ha : quat.normSq a = 1) :
    quat.quatprod a (quat.quatprod (quat.conjugate a) t) = t := by
  obtain ⟨ax, ay, az, aw⟩ := a
  obtain ⟨tx, ty, tz, tw⟩ := t
  simp only [quat.normSq, quat.dot] at ha
  simp only [quat.quatprod, quat.conjugate]
  refine quat.Quat.ext ?_ ?_ ?_ ?_ <;> dsimp only
  · linear_combination tx * ha
  · linear_combination ty * ha
  · linear_combination tz * ha
  · linear_combination tw * ha

theorem argminIdx_lt_length {α : Type} [LinearOrder α] :
    ∀ l : List α, l ≠ [] → argminIdx l < l.length
  | [], h => absurd rfl h
  | [_], _ => by simp [argminIdx]
  | x :: y :: t, _ => by
    have ih := argminIdx_lt_length (y :: t) (by simp)
    simp only [argminIdx]
    split
    · simp
    · simpa using Nat.succ_lt_succ ih

theorem argmaxIdx_lt_length {α : Type} [LinearOrder α] :
    ∀ l : List α, l ≠ [] → argmaxIdx l < l.length
  | [], h => absurd rfl h
  | [_], _ => by simp [argmaxIdx]
  | x :: y :: t, _ => by
    have ih := argmaxIdx_lt_length (y :: t) (by simp)
    simp only [argmaxIdx]
    split
    · simp
    · simpa using Nat.succ_lt_succ ih

theorem argmaxIdx_is_max {α : Type} [LinearOrder α] :
    ∀ (l : List α) (d : α) (j : ℕ), j < l.length →
      l.getD j d ≤ l.getD (argmaxIdx l) d
  | [], _, _, hj => absurd hj (by simp)
  | [x], d, j, hj => by
    simp only [List.length_singleton, Nat.lt_one_iff] at hj
    subst hj
    simp [argmaxIdx]
  | x :: y :: t, d, j, hj => by
    have hlt := argmaxIdx_lt_length (y :: t) (by simp)
    have hdx : (y :: t).getD (argmaxIdx (y :: t)) x =
        (y :: t).getD (argmaxIdx (y :: t)) d := by
      rw [List.getD_eq_getElem _ _ hlt, List.getD_eq_getElem _ _ hlt]
    simp only [argmaxIdx]
    split
    · rename_i h
      match j, hj with
      | 0, _ => simp
      | j + 1, hj =>
        simp only [List.getD_cons_succ, List.getD_cons_zero]
        calc (y :: t).getD j d ≤ (y :: t).getD (argmaxIdx (y :: t)) d :=
              argmaxIdx_is_max (y :: t) d j (by simpa using hj)
          _ = (y :: t).getD (argmaxIdx (y :: t)) x := hdx.symm
          _ ≤ x := h
    · rename_i h
      push_neg at h
      match j, hj with
      | 0, _ =>
        simp only [List.getD_cons_succ, List.getD_cons_zero]
        rw [← hdx]
        exact le_of_lt h
      | j + 1, hj =>
        simp only [List.getD_cons_succ]
        exact argmaxIdx_is_max (y :: t) d j (by simpa using hj)

theorem argmaxIdx_first_max {α : Type} [LinearOrder α] :
    ∀ (l : List α) (d : α) (j : ℕ), j < argmaxIdx l →
      l.getD j d < l.getD (argmaxIdx l) d
  | [], _, _, hj => by simp [argmaxIdx] at hj
  | [x], d, j, hj => by simp [argmaxIdx] at hj
  | x :: y :: t, d, j, hj => by
    have hlt := argmaxIdx_lt_length (y :: t) (by simp)
    have hdx : (y :: t).getD (argmaxIdx (y :: t)) x =
        (y :: t).getD (argmaxIdx (y :: t)) d := by
      rw [List.getD_eq_getElem _ _ hlt, List.getD_eq_getElem _ _ hlt]
    simp only [argmaxIdx] at hj ⊢
    split
    · rename_i h
      rw [if_pos h] at hj
      exact absurd hj (Nat.not_lt_zero j)
    · rename_i h
      push_neg at h
      rw [if_neg (not_le.mpr h)] at hj
      match j, hj with
      | 0, _ =>
        simp only [List.getD_cons_succ, List.getD_cons_zero]
        rw [← hdx]
        exact h
      | j + 1, hj =>
        simp only [List.getD_cons_succ]
        exact argmaxIdx_first_max (y :: t) d j (by simpa using hj)

theorem Mask2CAD.selectedAnchor_mem (anchors : List quat.Quat) (q : quat.Quat)
    (h : anchors ≠ []) : Mask2CAD.selectedAnchor anchors q ∈ anchors := by
  unfold Mask2CAD.selectedAnchor Mask2CAD.assignBin
  have hlt : argminIdx (quat.quatcdist q anchors) < anchors.length := by
    have hlen := argminIdx_lt_length (quat.quatcdist q anchors)
      (by simpa [quat.quatcdist] using h)
    simpa [quat.quatcdist] using hlen
  rw [List.getD_eq_getElem _ _ hlt]
  exact List.getElem_mem hlt

/-- C2: for every unit quaternion a and arbitrary quaternion d,
relative(a, compose(a, d)) = d; consequently the rotation delta that
compute_rotation_location_targets builds from the selected anchor and the true
rotation, recombined with that anchor by the product the inference path of
forward applies, reconstructs the true rotation (exact over the rationals,
where the float approximation of the source is ideal arithmetic). -/
theorem relative_compose_roundtrip (a d q : quat.Quat)
    (anchors_by_category : List (List quat.Quat)) (category_idx : ℕ)
    (bbox : Mask2CAD.BoxXYXY) (loc : ℚ × ℚ × ℚ)
    (ha : quat.normSq a = 1)
    (hanchors : ∀ b ∈ anchors_by_category.getD category_idx [], quat.normSq b = 1)
    (hne : anchors_by_category.getD category_idx [] ≠ []) :
    quat.quatprodinv a (quat.quatprod a d) = d ∧
    quat.quatprod (Mask2CAD.selectedAnchor (anchors_by_category.getD category_idx []) q)
      (Mask2CAD.compute_rotation_location_targets anchors_by_category bbox loc q
        category_idx).delta = q := by
  constructor
  · exact quat.conjugate_prod_self a d ha
  · have hmem := Mask2CAD.selectedAnchor_mem (anchors_by_category.getD category_idx []) q hne
    have hunit := hanchors _ hmem
    show quat.quatprod _ (quat.quatprodinv _ q) = q
    exact quat.prod_conjugate_self _ q hunit

theorem relative_compose_roundtrip_witness :
    quat.normSq ⟨0, 0, 0, 1⟩ = 1 ∧
    (∀ b ∈ [(⟨0, 0, 0, 1⟩ : quat.Quat)], quat.normSq b = 1) ∧
    quat.quatprodinv ⟨0, 0, 0, 1⟩
        (quat.quatprod ⟨0, 0, 0, 1⟩ ⟨1, 2, 3, 4⟩) = ⟨1, 2, 3, 4⟩ ∧
    quat.quatprod
        (Mask2CAD.selectedAnchor [⟨0, 0, 0, 1⟩] ⟨3 / 5, 4 / 5, 0, 0⟩)
        (Mask2CAD.compute_rotation_location_targets [[⟨0, 0, 0, 1⟩]] ⟨0, 0, 1, 1⟩
          (0, 0, 0) ⟨3 / 5, 4 / 5, 0, 0⟩ 0).delta = ⟨3 / 5, 4 / 5, 0, 0⟩ := by
  have h1 : quat.normSq (⟨0, 0, 0, 1⟩ : quat.Quat) = 1 := by
    norm_num [quat.normSq, quat.dot]
  have h2 : ∀ b ∈ [(⟨0, 0, 0, 1⟩ : quat.Quat)], quat.normSq b = 1 := by
    intro b hb
    rw [List.mem_singleton] at hb
    subst hb
    exact h1
  have h3 := relative_compose_roundtrip ⟨0, 0, 0, 1⟩ ⟨1, 2, 3, 4⟩ ⟨3 / 5, 4 / 5, 0, 0⟩
    [[⟨0, 0, 0, 1⟩]] 0 ⟨0, 0, 1, 1⟩ (0, 0, 0) h1 h2 (by simp)
  exact ⟨h1, h2, h3.1, h3.2⟩

/-- C3: the ground-truth rotation bin computed by
compute_rotation_location_targets (argmin of the pairwise quaternion distances
to the category's anchors) is invariant under negation of the input unit
quaternion. -/
theorem assignBin_neg_invariant (anchors_by_category : List (List quat.Quat))
    (bbox : Mask2CAD.BoxXYXY) (loc : ℚ × ℚ × ℚ) (q : quat.Quat) (category_idx : ℕ)
    (_hq : quat.normSq q = 1) :
    (Mask2CAD.compute_rotation_location_targets anchors_by_category bbox loc q
      category_idx).bin =
    (Mask2CAD.compute_rotation_location_targets anchors_by_category bbox loc (quat.neg q)
      category_idx).bin := by
  simp only [Mask2CAD.compute_rotation_location_targets, Mask2CAD.assignBin]
  congr 1
  unfold quat.quatcdist
  refine List.map_congr_left ?_
  intro b _
  unfold quat.quatdist
  have hdot : quat.dot (quat.neg q) b = -quat.dot q b := by
    simp only [quat.dot, quat.neg]
    ring
  rw [hdot, abs_neg]

theorem assignBin_neg_invariant_witness :
    quat.normSq ⟨3 / 5, 4 / 5, 0, 0⟩ = 1 ∧
    (Mask2CAD.compute_rotation_location_targets [[⟨0, 0, 0, 1⟩, ⟨1, 0, 0, 0⟩]]
      ⟨0, 0, 1, 1⟩ (0, 0, 0) ⟨3 / 5, 4 / 5, 0, 0⟩ 0).bin =
    (Mask2CAD.compute_rotation_location_targets [[⟨0, 0, 0, 1⟩, ⟨1, 0, 0, 0⟩]]
      ⟨0, 0, 1, 1⟩ (0, 0, 0) (quat.neg ⟨3 / 5, 4 / 5, 0, 0⟩) 0).bin := by
  have h1 : quat.normSq (⟨3 / 5, 4 / 5, 0, 0⟩ : quat.Quat) = 1 := by
    norm_num [quat.normSq, quat.dot]
  exact ⟨h1, assignBin_neg_invariant [[⟨0, 0, 0, 1⟩, ⟨1, 0, 0, 0⟩]] ⟨0, 0, 1, 1⟩
    (0, 0, 0) ⟨3 / 5, 4 / 5, 0, 0⟩ 0 h1⟩

/-- C7: for boxes of positive width and height, the center-regression target of
compute_rotation_location_targets is the true location offset from the box
center, normalized by the box extent, with the center and extent as
xyxy_to_cxcywh computes them. -/
theorem center_delta_target_formula (anchors_by_category : List (List quat.Quat))
    (bbox : Mask2CAD.BoxXYXY) (loc : ℚ × ℚ × ℚ) (q : quat.Quat) (category_idx : ℕ)
    (_hw : 0 < bbox.x2 - bbox.x1) (_hh : 0 < bbox.y2 - bbox.y1) :
    (Mask2CAD.compute_rotation_location_targets anchors_by_category bbox loc q
      category_idx).center_dx =
      (loc.1 - (bbox.x1 + (bbox.x2 - bbox.x1) / 2)) / (bbox.x2 - bbox.x1) ∧
    (Mask2CAD.compute_rotation_location_targets anchors_by_category bbox loc q
      category_idx).center_dy =
      (loc.2.1 - (bbox.y1 + (bbox.y2 - bbox.y1) / 2)) / (bbox.y2 - bbox.y1) := by
  constructor <;>
    simp [Mask2CAD.compute_rotation_location_targets, Mask2CAD.xyxy_to_cxcywh]

theorem center_delta_target_formula_witness :
    (0 : ℚ) < 2 - 0 ∧ (0 : ℚ) < 4 - 0 ∧
    (Mask2CAD.compute_rotation_location_targets [[⟨0, 0, 0, 1⟩]] ⟨0, 0, 2, 4⟩
      (1, 1, 5) ⟨0, 0, 0, 1⟩ 0).center_dx = ((1 : ℚ) - (0 + (2 - 0) / 2)) / (2 - 0) ∧
    (Mask2CAD.compute_rotation_location_targets [[⟨0, 0, 0, 1⟩]] ⟨0, 0, 2, 4⟩
      (1, 1, 5) ⟨0, 0, 0, 1⟩ 0).center_dy = ((1 : ℚ) - (0 + (4 - 0) / 2)) / (4 - 0) := by
  have h := center_delta_target_formula [[⟨0, 0, 0, 1⟩]] ⟨0, 0, 2, 4⟩ (1, 1, 5)
    ⟨0, 0, 0, 1⟩ 0 (by norm_num) (by norm_num)
  exact ⟨by norm_num, by norm_num, h.1, h.2⟩

/-- C6 counterexample: no configuration of the weights the code reads can scale
the rotation-refinement loss and the center-regression loss differently, so the
four components are not independently weightable; line 96 multiplies both by
the single pose_regression weight. -/
theorem combined_loss_shared_weight :
    ¬ ∃ w : Mask2CAD.LossWeights,
        Mask2CAD.combined_loss w 0 0 1 0 ≠ Mask2CAD.combined_loss w 0 0 0 1 := by
  rintro ⟨w, hw⟩
  exact hw (by simp [Mask2CAD.combined_loss])

/-- C6 (amended): in training mode the scalar loss is a weighted sum of the
four component losses, with dedicated caller-configurable weights for the
shape-embedding and pose-classification terms, while the rotation-refinement
and center-regression terms share the single pose_regression weight. -/
theorem combined_loss_three_weights (w : Mask2CAD.LossWeights) (se pc pr cr : ℚ) :
    Mask2CAD.combined_loss w se pc pr cr =
      w.shape_embedding * se + w.pose_classification * pc +
        w.pose_regression * (pr + cr) := by
  simp only [Mask2CAD.combined_loss]
  ring

/-- C5 counterexample: at a concrete instantiation of the detector pieces, the
training-mode branch input (the raw pooled box features) differs from the
product of the resized pooled features with the gathered foreground
probabilities, so the aggregation does not happen in every forward pass. -/
theorem branch_input_training_unmasked :
    Mask2CAD.branch_input Mask2CAD.concrete_parts true 1 1 ≠
      Mask2CAD.concrete_parts.interpolate
          (Mask2CAD.concrete_parts.box_roi_pool
            Mask2CAD.concrete_parts.mask_roi_pool_args.1
            Mask2CAD.concrete_parts.mask_roi_pool_args.2) *
        Mask2CAD.mask_probs Mask2CAD.concrete_parts := by
  norm_num [Mask2CAD.branch_input, Mask2CAD.concrete_parts, Mask2CAD.mask_probs]

/-- C5 (amended): only in evaluation mode is the tensor fed to the four
prediction branches the elementwise product of the pooled region features,
resized to the mask resolution, with the foreground probabilities gathered for
the detection's category; in training mode the pooled box features are fed
unchanged, with no mask gating. -/
theorem branch_input_by_mode {T : Type} [Mul T] (p : Mask2CAD.ForwardParts T)
    (img bbox : T) :
    Mask2CAD.branch_input p false img bbox =
      p.interpolate (p.box_roi_pool p.mask_roi_pool_args.1 p.mask_roi_pool_args.2) *
        Mask2CAD.mask_probs p ∧
    Mask2CAD.branch_input p true img bbox =
      p.box_roi_pool (p.backbone (p.transform img)) bbox :=
  ⟨rfl, rfl⟩

/-- C9: the evaluation branch of forward never produces detections: the bare
name quatprod of line 102 resolves against no local, module-global or builtin
name (line 8 binds only the module name quat), so every evaluation-mode call
fails with NameError before the final rotation is composed. -/
theorem forward_eval_always_name_error (anchors_by_category : List (List quat.Quat))
    (category_idx : ℕ) (bins : List ℚ) (delta : quat.Quat) (bbox : Mask2CAD.BoxXYXY)
    (cdx cdy depth : ℚ) :
    Mask2CAD.forward_eval anchors_by_category category_idx bins delta bbox cdx cdy depth =
      Except.error "NameError: name quatprod is not defined" := by
  have h : Mask2CAD.name_resolves "quatprod" = false := by decide
  simp [Mask2CAD.forward_eval, h]

theorem ShapeRetrieval.foldl_init_step_shape_idx {V E I : Type} (encoder : V → List E) :
    ∀ (l : List (V × List I)) (s : ShapeRetrieval.Attrs E I),
      (l.foldl (ShapeRetrieval.init_step encoder) s).shape_idx = s.shape_idx
  | [], _ => rfl
  | item :: l, s => by
    rw [List.foldl_cons, ShapeRetrieval.foldl_init_step_shape_idx encoder l]
    rfl

/-- C10 counterexample: for the empty rendered-views dataset the constructor
raises RuntimeError at line 19 (`torch.cat` of the empty accumulated list),
which is not the AttributeError the claim asserts for every input, so the read
of `self.shape_idx` at line 20 is never reached there. -/
theorem shape_retrieval_init_empty_dataset_runtime_error :
    ShapeRetrieval.init (fun _ : Unit => ([] : List ℚ)) id
        ([] : List (Unit × List ℕ)) =
      Except.error "RuntimeError: torch.cat expected a non-empty list of Tensors" ∧
    ("RuntimeError: torch.cat expected a non-empty list of Tensors" : String) ≠
      "AttributeError: ShapeRetrieval object has no attribute shape_idx" := by
  exact ⟨rfl, by decide⟩

/-- C10 (amended): the ShapeRetrieval constructor never successfully
constructs an instance, for any encoder, normalization and dataset; whenever
the loop accumulated at least one encoded view, line 19's torch.cat succeeds
and the read of the never-assigned self.shape_idx at line 20 raises
AttributeError, while with zero accumulated views torch.cat itself raises
RuntimeError at line 19 first. -/
theorem shape_retrieval_init_never_constructed {V E I : Type} (encoder : V → List E)
    (normalize_fn : List E → List E) (dataset : List (V × List I)) :
    (∀ a : ShapeRetrieval.Attrs E I,
      ShapeRetrieval.init encoder normalize_fn dataset ≠ Except.ok a) ∧
    (ShapeRetrieval.accumulated_embedding encoder dataset ≠ [] →
      ShapeRetrieval.init encoder normalize_fn dataset =
        Except.error "AttributeError: ShapeRetrieval object has no attribute shape_idx") := by
  have hfold : (dataset.foldl (ShapeRetrieval.init_step encoder)
      (ShapeRetrieval.init_attrs0 E I)).shape_idx = none :=
    ShapeRetrieval.foldl_init_step_shape_idx encoder dataset (ShapeRetrieval.init_attrs0 E I)
  by_cases hacc : ShapeRetrieval.accumulated_embedding encoder dataset = []
  · have hcat : ShapeRetrieval.torch_cat ((dataset.foldl (ShapeRetrieval.init_step encoder)
        (ShapeRetrieval.init_attrs0 E I)).shape_embedding.getD []) =
        Except.error "RuntimeError: torch.cat expected a non-empty list of Tensors" := by
      show ShapeRetrieval.torch_cat (ShapeRetrieval.accumulated_embedding encoder dataset) = _
      rw [hacc]
      rfl
    have hinit : ShapeRetrieval.init encoder normalize_fn dataset =
        Except.error "RuntimeError: torch.cat expected a non-empty list of Tensors" := by
      unfold ShapeRetrieval.init
      simp only [hcat]
    rw [hinit]
    exact ⟨fun a h => Except.noConfusion h, fun hne => absurd hacc hne⟩
  · have hcat : ShapeRetrieval.torch_cat ((dataset.foldl (ShapeRetrieval.init_step encoder)
        (ShapeRetrieval.init_attrs0 E I)).shape_embedding.getD []) =
        Except.ok (ShapeRetrieval.accumulated_embedding encoder dataset) := by
      show ShapeRetrieval.torch_cat (ShapeRetrieval.accumulated_embedding encoder dataset) = _
      unfold ShapeRetrieval.torch_cat
      rw [if_neg (by simpa [List.isEmpty_iff] using hacc)]
    have hinit : ShapeRetrieval.init encoder normalize_fn dataset =
        Except.error "AttributeError: ShapeRetrieval object has no attribute shape_idx" := by
      unfold ShapeRetrieval.init
      simp only [hcat, hfold]
    rw [hinit]
    exact ⟨fun a h => Except.noConfusion h, fun _ => rfl⟩

theorem shape_retrieval_init_never_constructed_witness :
    ShapeRetrieval.accumulated_embedding (fun _ : Unit => [(1 : ℚ)]) [((), [0])] ≠ [] ∧
    (∀ a : ShapeRetrieval.Attrs ℚ ℕ,
      ShapeRetrieval.init (fun _ : Unit => [(1 : ℚ)]) id [((), [0])] ≠ Except.ok a) ∧
    ShapeRetrieval.init (fun _ : Unit => [(1 : ℚ)]) id [((), [0])] =
      Except.error "AttributeError: ShapeRetrieval object has no attribute shape_idx" := by
  have hne : ShapeRetrieval.accumulated_embedding (fun _ : Unit => [(1 : ℚ)])
      [((), [0])] ≠ [] := by decide
  have h := shape_retrieval_init_never_constructed (fun _ : Unit => [(1 : ℚ)]) id
    ([((), [0])] : List (Unit × List ℕ))
  exact ⟨hne, h.1, h.2 hne⟩

/-- C8 counterexample: with catalog rows v1 = [1, 0] carrying shape id 7 and
v2 = [0, 1] carrying shape id 9, and query [0.9, 0.3], forward stores 0 (the
row index of the best catalog entry) into the detection, while the query the
spec describes returns the stored shape id 7: line 26 never consults the
per-row shape ids. -/
theorem query_returns_row_index_not_shape_id :
    ShapeRetrieval.query [[1, 0], [0, 1]] [9 / 10, 3 / 10] = 0 ∧
    ShapeRetrieval.query_spec [[1, 0], [0, 1]] [7, 9] [9 / 10, 3 / 10] = 7 ∧
    (0 : ℕ) ≠ 7 := by
  set s : ℝ := max (Real.sqrt (sumSq [9 / 10, 3 / 10])) (1 / 10 ^ 12) with hs_def
  have hs : (0 : ℝ) < s := lt_of_lt_of_le (by norm_num) (le_max_right _ _)
  have hnorm : l2normalize [(9 : ℝ) / 10, 3 / 10] = [9 / 10 / s, 3 / 10 / s] := by
    simp [l2normalize, hs_def]
  have hsims : ShapeRetrieval.querySims [[1, 0], [0, 1]] [9 / 10, 3 / 10] =
      [9 / 10 / s, 3 / 10 / s] := by
    simp [ShapeRetrieval.querySims, hnorm, dotVec]
  have hle : (3 : ℝ) / 10 / s ≤ 9 / 10 / s :=
    (div_le_div_iff_of_pos_right hs).mpr (by norm_num)
  have hargmax : ShapeRetrieval.query [[1, 0], [0, 1]] [9 / 10, 3 / 10] = 0 := by
    unfold ShapeRetrieval.query
    rw [hsims]
    simp [argmaxIdx, hle]
  refine ⟨hargmax, ?_, by norm_num⟩
  unfold ShapeRetrieval.query_spec
  rw [hsims]
  have h0 : argmaxIdx [(9 : ℝ) / 10 / s, 3 / 10 / s] = 0 := by simp [argmaxIdx, hle]
  rw [h0]
  simp

/-- C8 (amended): the retrieval query computes the dot-product similarity of
the L2-normalized detection embedding against every catalog entry and returns
the index of the entry with maximal similarity, the one earliest in catalog
insertion order when several entries tie for the maximum; this equals the
entry's shape id only when the stored per-entry shape ids coincide with the
row positions, and for the example catalog v1 = [1, 0], v2 = [0, 1] with query
[0.9, 0.3] the result is 0, the position of v1. -/
theorem query_characterization (catalog : List Vec) (det : Vec)
    (hne : catalog ≠ []) :
    ShapeRetrieval.query catalog det < catalog.length ∧
    (∀ j, j < catalog.length →
      (ShapeRetrieval.querySims catalog det).getD j 0 ≤
        (ShapeRetrieval.querySims catalog det).getD (ShapeRetrieval.query catalog det) 0) ∧
    (∀ j, j < ShapeRetrieval.query catalog det →
      (ShapeRetrieval.querySims catalog det).getD j 0 <
        (ShapeRetrieval.querySims catalog det).getD (ShapeRetrieval.query catalog det) 0) := by
  have hsne : ShapeRetrieval.querySims catalog det ≠ [] := by
    simp only [ShapeRetrieval.querySims, ne_eq, List.map_eq_nil_iff]
    exact hne
  refine ⟨?_, ?_, ?_⟩
  · have hlen := argmaxIdx_lt_length _ hsne
    simpa [ShapeRetrieval.query, ShapeRetrieval.querySims] using hlen
  · intro j hj
    exact argmaxIdx_is_max _ 0 j (by simpa [ShapeRetrieval.querySims] using hj)
  · intro j hj
    exact argmaxIdx_first_max _ 0 j hj

theorem query_characterization_witness :
    ([[1, 0], [0, 1]] : List Vec) ≠ [] ∧
    (ShapeRetrieval.query [[1, 0], [0, 1]] [9 / 10, 3 / 10] <
        ([[1, 0], [0, 1]] : List Vec).length ∧
      (∀ j, j < ([[1, 0], [0, 1]] : List Vec).length →
        (ShapeRetrieval.querySims [[1, 0], [0, 1]] [9 / 10, 3 / 10]).getD j 0 ≤
          (ShapeRetrieval.querySims [[1, 0], [0, 1]] [9 / 10, 3 / 10]).getD
            (ShapeRetrieval.query [[1, 0], [0, 1]] [9 / 10, 3 / 10]) 0) ∧
      (∀ j, j < ShapeRetrieval.query [[1, 0], [0, 1]] [9 / 10, 3 / 10] →
        (ShapeRetrieval.querySims [[1, 0], [0, 1]] [9 / 10, 3 / 10]).getD j 0 <
          (ShapeRetrieval.querySims [[1, 0], [0, 1]] [9 / 10, 3 / 10]).getD
            (ShapeRetrieval.query [[1, 0], [0, 1]] [9 / 10, 3 / 10]) 0)) := by
  have hne : ([[1, 0], [0, 1]] : List Vec) ≠ [] := by simp
  exact ⟨hne, query_characterization [[1, 0], [0, 1]] [9 / 10, 3 / 10] hne⟩

theorem masked_map_perm {α : Type} (p : ℕ → Bool) (d : ℕ → α) (wall : α) (xs : List ℕ) :
    (xs.map fun j => if p j then d j else wall).Perm
      ((xs.filter p).map d ++
        List.replicate (xs.filter fun j => !p j).length wall) := by
  have h := (List.filter_append_perm p xs).symm.map fun j => if p j then d j else wall
  rw [List.map_append] at h
  have h1 : (xs.filter p).map (fun j => if p j then d j else wall) =
      (xs.filter p).map d := by
    refine List.map_congr_left ?_
    intro a ha
    rw [List.mem_filter] at ha
    simp [ha.2]
  have h2 : (xs.filter fun j => !p j).map (fun j => if p j then d j else wall) =
      List.replicate (xs.filter fun j => !p j).length wall := by
    rw [List.eq_replicate_iff]
    refine ⟨List.length_map _ _, ?_⟩
    intro b hb
    rw [List.mem_map] at hb
    obtain ⟨a, ha, rfl⟩ := hb
    rw [List.mem_filter] at ha
    have hpa : p a = false := by simpa using ha.2
    simp [hpa]
  rw [h1, h2] at h
  exact h

theorem insertionSort_perm_append_top {α : Type} [LinearOrder α] [OrderTop α]
    {L A : List α} {m : ℕ} (h : L.Perm (A ++ List.replicate m ⊤)) :
    List.insertionSort (· ≤ ·) L =
      List.insertionSort (· ≤ ·) A ++ List.replicate m ⊤ := by
  refine List.eq_of_perm_of_sorted ?_ (List.sorted_insertionSort _ L) ?_
  · exact (List.perm_insertionSort _ L).trans
      (h.trans ((List.perm_insertionSort _ A).symm.append_right _))
  · rw [List.Sorted, List.pairwise_append]
    refine ⟨List.sorted_insertionSort _ A, ?_, ?_⟩
    · exact List.pairwise_replicate.mpr (Or.inr le_rfl)
    · intro x _ y hy
      rw [List.eq_of_mem_replicate hy]
      exact le_top

theorem insertionSort_perm_append_bot {α : Type} [LinearOrder α] [OrderBot α]
    {L A : List α} {m : ℕ} (h : L.Perm (A ++ List.replicate m ⊥)) :
    List.insertionSort (· ≤ ·) L =
      List.replicate m ⊥ ++ List.insertionSort (· ≤ ·) A := by
  refine List.eq_of_perm_of_sorted ?_ (List.sorted_insertionSort _ L) ?_
  · exact (List.perm_insertionSort _ L).trans
      (h.trans (List.perm_append_comm.trans
        ((List.perm_insertionSort _ A).symm.append_left _)))
  · rw [List.Sorted, List.pairwise_append]
    refine ⟨List.pairwise_replicate.mpr (Or.inr le_rfl),
      List.sorted_insertionSort _ A, ?_⟩
    intro x hx y _
    rw [List.eq_of_mem_replicate hx]
    exact bot_le

theorem insertionSort_map_mono {α β : Type} [LinearOrder α] [LinearOrder β]
    (f : α → β) (hf : ∀ a b : α, a ≤ b → f a ≤ f b) (l : List α) :
    List.insertionSort (· ≤ ·) (l.map f) = (List.insertionSort (· ≤ ·) l).map f := by
  refine List.eq_of_perm_of_sorted ?_ (List.sorted_insertionSort _ _) ?_
  · exact (List.perm_insertionSort _ _).trans ((List.perm_insertionSort _ l).symm.map f)
  · exact List.Pairwise.map f hf (List.sorted_insertionSort _ l)

theorem toER_mono {x y : ℝ} (h : x ≤ y) : toER x ≤ toER y := by
  simpa [toER] using h

theorem finOf_toER (x : ℝ) : finOf (toER x) = some x := by
  simp [finOf, toER]

theorem mapM_finOf_map_toER : ∀ l : List ℝ, (l.map toER).mapM finOf = some l
  | [] => rfl
  | x :: l => by
    rw [List.map_cons, List.mapM_cons, finOf_toER, mapM_finOf_map_toER l]
    rfl

theorem mapM_eq_map_of_forall {α β : Type} (f : α → Option β) (g : α → β) :
    ∀ l : List α, (∀ a ∈ l, f a = some (g a)) → l.mapM f = some (l.map g)
  | [], _ => rfl
  | a :: l, h => by
    rw [List.mapM_cons, h a (by simp), mapM_eq_map_of_forall f g l
      fun b hb => h b (List.mem_cons_of_mem a hb)]
    rfl

theorem finOf_top : finOf (⊤ : ER) = none := rfl

theorem finOf_bot : finOf (⊥ : ER) = none := rfl

theorem topkSmallest_posMaskedRow (img rendered : List Vec) (shape_idx : List ℕ)
    (V : ℕ) (tau : ℝ) (P : ℕ) (i : ℕ)
    (hP : P ≤ ((List.range rendered.length).filter fun j =>
      Mask2CAD.same_shape shape_idx V i j).length) :
    Mask2CAD.topkSmallest P (Mask2CAD.posMaskedRow img rendered shape_idx V tau i) =
      some ((Mask2CAD.specPosSims img rendered shape_idx V tau P i).map toER) := by
  set xs := List.range rendered.length with hxs
  set p : ℕ → Bool := fun j => Mask2CAD.same_shape shape_idx V i j with hp
  set d : ℕ → ℝ := fun j => Mask2CAD.simMatrix img rendered tau i j with hd
  have hrow : Mask2CAD.posMaskedRow img rendered shape_idx V tau i =
      xs.map fun j => if p j then toER (d j) else (⊤ : ER) := rfl
  have hperm : (Mask2CAD.posMaskedRow img rendered shape_idx V tau i).Perm
      (((xs.filter p).map d).map toER ++
        List.replicate (xs.filter fun j => !p j).length (⊤ : ER)) := by
    rw [hrow]
    have h := masked_map_perm p (fun j => toER (d j)) (⊤ : ER) xs
    rwa [show (xs.filter p).map (fun j => toER (d j)) = ((xs.filter p).map d).map toER from
      (List.map_map toER d (xs.filter p)).symm] at h
  have hsort : List.insertionSort (· ≤ ·) (Mask2CAD.posMaskedRow img rendered shape_idx V tau i) =
      (List.insertionSort (· ≤ ·) ((xs.filter p).map d)).map toER ++
        List.replicate (xs.filter fun j => !p j).length (⊤ : ER) := by
    rw [insertionSort_perm_append_top hperm,
      insertionSort_map_mono toER (fun _ _ h => toER_mono h)]
  have hlen : ¬ (Mask2CAD.posMaskedRow img rendered shape_idx V tau i).length < P := by
    rw [not_lt, hrow, List.length_map]
    exact le_trans hP (List.length_filter_le _ _)
  rw [Mask2CAD.topkSmallest, if_neg hlen, hsort,
    List.take_append_of_le_length
      (by simpa [List.length_insertionSort] using hP),
    ← List.map_take]
  rfl

theorem topkLargest_negMaskedRow (img rendered : List Vec) (category_idx : List ℕ)
    (V : ℕ) (tau : ℝ) (N : ℕ) (i : ℕ)
    (hN : N ≤ ((List.range rendered.length).filter fun j =>
      Mask2CAD.same_category category_idx V i j).length) :
    Mask2CAD.topkLargest N (Mask2CAD.negMaskedRow img rendered category_idx V tau i) =
      some ((Mask2CAD.specNegSims img rendered category_idx V tau N i).map toER) := by
  set xs := List.range rendered.length with hxs
  set p : ℕ → Bool := fun j => Mask2CAD.same_category category_idx V i j with hp
  set d : ℕ → ℝ := fun j => Mask2CAD.simMatrix img rendered tau i j with hd
  have hrow : Mask2CAD.negMaskedRow img rendered category_idx V tau i =
      xs.map fun j => if p j then toER (d j) else (⊥ : ER) := rfl
  have hperm : (Mask2CAD.negMaskedRow img rendered category_idx V tau i).Perm
      (((xs.filter p).map d).map toER ++
        List.replicate (xs.filter fun j => !p j).length (⊥ : ER)) := by
    rw [hrow]
    have h := masked_map_perm p (fun j => toER (d j)) (⊥ : ER) xs
    rwa [show (xs.filter p).map (fun j => toER (d j)) = ((xs.filter p).map d).map toER from
      (List.map_map toER d (xs.filter p)).symm] at h
  have hsort : List.insertionSort (· ≤ ·) (Mask2CAD.negMaskedRow img rendered category_idx V tau i) =
      List.replicate (xs.filter fun j => !p j).length (⊥ : ER) ++
        (List.insertionSort (· ≤ ·) ((xs.filter p).map d)).map toER := by
    rw [insertionSort_perm_append_bot hperm,
      insertionSort_map_mono toER (fun _ _ h => toER_mono h)]
  have hlen : ¬ (Mask2CAD.negMaskedRow img rendered category_idx V tau i).length < N := by
    rw [not_lt, hrow, List.length_map]
    exact le_trans hN (List.length_filter_le _ _)
  rw [Mask2CAD.topkLargest, if_neg hlen, hsort, List.reverse_append,
    List.reverse_replicate, ← List.map_reverse,
    List.take_append_of_le_length
      (by simpa [List.length_insertionSort] using hN),
    ← List.map_take]
  rfl

theorem rowLoss_eq_spec (img rendered : List Vec) (category_idx shape_idx : List ℕ)
    (V : ℕ) (C tau : ℝ) (P N : ℕ) (i : ℕ)
    (hP : P ≤ ((List.range rendered.length).filter fun j =>
      Mask2CAD.same_shape shape_idx V i j).length)
    (hN : N ≤ ((List.range rendered.length).filter fun j =>
      Mask2CAD.same_category category_idx V i j).length) :
    Mask2CAD.rowLossOf C
      (Mask2CAD.topkSmallest P (Mask2CAD.posMaskedRow img rendered shape_idx V tau i))
      (Mask2CAD.topkLargest N (Mask2CAD.negMaskedRow img rendered category_idx V tau i)) =
    some (((Mask2CAD.specPosSims img rendered shape_idx V tau P i).map fun p =>
      -Real.log (p / (p + C *
        (Mask2CAD.specNegSims img rendered category_idx V tau N i).sum))).sum) := by
  rw [topkSmallest_posMaskedRow img rendered shape_idx V tau P i hP,
    topkLargest_negMaskedRow img rendered category_idx V tau N i hN]
  simp only [Mask2CAD.rowLossOf, mapM_finOf_map_toER]

/-- C1: on every batch in which each detection has at least P same-shape and at
least N same-category rendered views, shape_embedding_loss L2-normalizes every
detection and view embedding, builds the full cross similarity matrix
D[i, j] = dot(detEmbed_i, viewEmbed_j) / tau, selects per detection the P
smallest-similarity same-shape entries and the N largest-similarity
same-category entries, and returns the mean over detections of the sum over
the P positives of -log(Dpos / (Dpos + C * sum(Dneg))), on the raw
similarities with no exponentiation: the code equals the loss as the spec
words it. -/
theorem shape_embedding_loss_eq_spec (img_region_features rendered_view_features : List Vec)
    (category_idx shape_idx : List ℕ) (V : ℕ) (C tau : ℝ) (P N : ℕ)
    (hne : img_region_features ≠ [])
    (hpos : ∀ i < img_region_features.length,
      P ≤ ((List.range rendered_view_features.length).filter fun j =>
        Mask2CAD.same_shape shape_idx V i j).length)
    (hneg : ∀ i < img_region_features.length,
      N ≤ ((List.range rendered_view_features.length).filter fun j =>
        Mask2CAD.same_category category_idx V i j).length) :
    Mask2CAD.shape_embedding_loss img_region_features rendered_view_features
      category_idx shape_idx V C tau P N =
    some (Mask2CAD.shape_embedding_loss_spec img_region_features rendered_view_features
      category_idx shape_idx V C tau P N) := by
  unfold Mask2CAD.shape_embedding_loss Mask2CAD.shape_embedding_loss_spec
  rw [if_neg (by simpa using hne)]
  rw [mapM_eq_map_of_forall _
    (fun i => ((Mask2CAD.specPosSims img_region_features rendered_view_features
        shape_idx V tau P i).map fun p =>
      -Real.log (p / (p + C * (Mask2CAD.specNegSims img_region_features
        rendered_view_features category_idx V tau N i).sum))).sum)
    (List.range img_region_features.length) ?_]
  · rfl
  · intro i hi
    rw [List.mem_range] at hi
    exact rowLoss_eq_spec img_region_features rendered_view_features category_idx
      shape_idx V C tau P N i (hpos i hi) (hneg i hi)

theorem shape_embedding_loss_eq_spec_witness :
    (([[1, 0]] : List Vec) ≠ []) ∧
    (∀ i < ([[1, 0]] : List Vec).length,
      1 ≤ ((List.range ([[1, 0]] : List Vec).length).filter fun j =>
        Mask2CAD.same_shape [0] 1 i j).length) ∧
    (∀ i < ([[1, 0]] : List Vec).length,
      1 ≤ ((List.range ([[1, 0]] : List Vec).length).filter fun j =>
        Mask2CAD.same_category [0] 1 i j).length) ∧
    Mask2CAD.shape_embedding_loss [[1, 0]] [[1, 0]] [0] [0] 1 (3 / 2) (3 / 20) 1 1 =
      some (Mask2CAD.shape_embedding_loss_spec [[1, 0]] [[1, 0]] [0] [0] 1
        (3 / 2) (3 / 20) 1 1) := by
  refine ⟨by simp, by decide, by decide, ?_⟩
  exact shape_embedding_loss_eq_spec [[1, 0]] [[1, 0]] [0] [0] 1 (3 / 2) (3 / 20) 1 1
    (by simp) (by decide) (by decide)

/-- C4 (the code at the failing inputs): a detection with an empty mining set
has no explicitly defined finite loss contribution.  With one detection and no
rendered views (zero same-shape positives and zero same-category negatives)
torch.topk raises for k = 1 on the empty row, modelled none; and with two
detections of distinct shapes, one view each and P = 2, the topk of the
shape-masked row selects a +inf sentinel, whose ratio term is NaN in floats,
modelled none: in neither case is the detection skipped or zero-weighted. -/
theorem shape_embedding_loss_empty_mining_undefined (C tau : ℝ) :
    Mask2CAD.shape_embedding_loss [[1]] [] [0] [0] 0 C tau 1 1 = none ∧
    Mask2CAD.shape_embedding_loss [[1], [1]] [[1], [1]] [0, 0] [0, 1] 1 C tau 2 1 = none := by
  constructor
  · rfl
  · have hsortpos : List.insertionSort (· ≤ ·)
        [toER (Mask2CAD.simMatrix [[1], [1]] [[1], [1]] tau 0 0), (⊤ : ER)] =
        [toER (Mask2CAD.simMatrix [[1], [1]] [[1], [1]] tau 0 0), (⊤ : ER)] := by
      simp [List.insertionSort, List.orderedInsert]
    have hpos : Mask2CAD.topkSmallest 2
        (Mask2CAD.posMaskedRow [[1], [1]] [[1], [1]] [0, 1] 1 tau 0) =
        some [toER (Mask2CAD.simMatrix [[1], [1]] [[1], [1]] tau 0 0), (⊤ : ER)] := by
      show Mask2CAD.topkSmallest 2
        [toER (Mask2CAD.simMatrix [[1], [1]] [[1], [1]] tau 0 0), (⊤ : ER)] = _
      rw [Mask2CAD.topkSmallest, if_neg (by norm_num), hsortpos]
      rfl
    have hmapM : ([toER (Mask2CAD.simMatrix [[1], [1]] [[1], [1]] tau 0 0),
        (⊤ : ER)]).mapM finOf = none := by
      rw [List.mapM_cons, finOf_toER, List.mapM_cons, finOf_top]
      rfl
    have hneg : Mask2CAD.topkLargest 1
        (Mask2CAD.negMaskedRow [[1], [1]] [[1], [1]] [0, 0] 1 tau 0) =
        some ((List.insertionSort (· ≤ ·)
          [toER (Mask2CAD.simMatrix [[1], [1]] [[1], [1]] tau 0 0),
           toER (Mask2CAD.simMatrix [[1], [1]] [[1], [1]] tau 0 1)]).reverse.take 1) := by
      show Mask2CAD.topkLargest 1
        [toER (Mask2CAD.simMatrix [[1], [1]] [[1], [1]] tau 0 0),
         toER (Mask2CAD.simMatrix [[1], [1]] [[1], [1]] tau 0 1)] = _
      rw [Mask2CAD.topkLargest, if_neg (by norm_num)]
    have hrow0 : Mask2CAD.rowLossOf C
        (Mask2CAD.topkSmallest 2 (Mask2CAD.posMaskedRow [[1], [1]] [[1], [1]] [0, 1] 1 tau 0))
        (Mask2CAD.topkLargest 1 (Mask2CAD.negMaskedRow [[1], [1]] [[1], [1]] [0, 0] 1 tau 0)) =
        none := by
      rw [hpos, hneg]
      simp only [Mask2CAD.rowLossOf, hmapM]
    unfold Mask2CAD.shape_embedding_loss
    rw [if_neg (by norm_num)]
    rw [show List.range ([[1], [1]] : List Vec).length = [0, 1] from rfl,
      List.mapM_cons, hrow0]
    rfl
